import Mathlib

/-!
Verification development for the alx-polly polling application.

The poll data-access layer (`PollRepository`, two versions), the zod input
validator (`createPollSchema`), the HTTP handlers for `/polls/[id]`, and the
SQL schema (tables, row-level-security policies, triggers) are embedded
shallowly: the relational store is a record of row lists, every store call
threads the state explicitly, and an injectable failure schedule models
store-level errors.  Timestamps are naturals (a global logical clock);
ISO-8601 date strings are compared lexicographically, which is faithful for
uniformly formatted timestamps.
-/

namespace Polly

/-- A row of `public.polls` (schema file, `create table public.polls`).
`position`-free columns `description` and `allow_multiple_votes` are never
read or written by the embedded code and are omitted. -/
structure PollRow where
  id : Nat
  title : String
  created_by : Nat
  is_public : Bool
  end_date : Option String
  created_at : Nat
  updated_at : Nat
deriving Repr, DecidableEq

/-- A row of `public.poll_options`.  The schema declares
`position integer not null`; `position = none` models SQL NULL, which the
store rejects on insert. -/
structure OptionRow where
  id : Nat
  poll_id : Nat
  text : String
  position : Option Nat
  created_at : Nat
deriving Repr, DecidableEq

/-- A row of `public.votes`. -/
structure VoteRow where
  id : Nat
  poll_id : Nat
  option_id : Nat
  user_id : Nat
deriving Repr, DecidableEq

/-- A row of `public.poll_analytics`. -/
structure AnalyticsRow where
  id : Nat
  poll_id : Nat
  views : Nat
  shares : Nat
  unique_voters : Nat
deriving Repr, DecidableEq

/-- The `CreatePollInput` from `lib/types/poll.ts`.  `end_date?: string | null`
is a double option: `none` = key absent, `some none` = explicit null. -/
structure CreatePollInput where
  title : String
  options : List String
  end_date : Option (Option String)
deriving Repr, DecidableEq

/-- The `PollWithOptions` from `lib/types/poll.ts`: a poll, its options and the
optional `_count.votes` aggregate (absent on the create/update paths). -/
structure PollWithOptions where
  poll : PollRow
  options : List OptionRow
  votesCount : Option Nat
deriving Repr, DecidableEq

/-- One write performed against the store, for comparing write sequences. -/
inductive WriteEvent where
  | insertPoll (r : PollRow)
  | insertOptions (rs : List OptionRow)
  | insertAnalytics (r : AnalyticsRow)
  | updatePollRow (r : PollRow)
  | deleteOptionsOfPoll (pid : Nat)
  | deletePollRow (id : Nat)
  | insertVote (r : VoteRow)
deriving Repr, DecidableEq

/-- The store: the four tables, a failure schedule (`sched` head `true`
makes the next store call error, modelling connectivity faults), a logical
clock, a fresh-id counter and the log of writes performed. -/
structure DBState where
  polls : List PollRow
  poll_options : List OptionRow
  votes : List VoteRow
  poll_analytics : List AnalyticsRow
  sched : List Bool
  time : Nat
  nextId : Nat
  log : List WriteEvent
deriving Repr, DecidableEq

/-- Run one store call: consume the next injected-failure flag (no flag
means no injected failure); on an injected failure the call errors and the
store is untouched, otherwise the call's own semantics `k` runs. -/
def call (s : DBState) (k : DBState → Except Unit α × DBState) :
    Except Unit α × DBState :=
  match s.sched with
  | [] => k s
  | b :: r => if b then (.error (), { s with sched := r }) else k { s with sched := r }

/-- All option rows of a poll, in insertion order. -/
def optionsOfPoll (s : DBState) (pid : Nat) : List OptionRow :=
  s.poll_options.filter (fun o => o.poll_id == pid)

/-- Number of vote rows of a poll. -/
def voteCountOfPoll (s : DBState) (pid : Nat) : Nat :=
  (s.votes.filter (fun v => v.poll_id == pid)).length

/-- The poll row matching an id, if any. -/
def findPoll (s : DBState) (id : Nat) : Option PollRow :=
  s.polls.find? (fun p => p.id == id)

/-- Insertion into a list sorted by `created_at` descending. -/
def insertDesc (p : PollRow) : List PollRow → List PollRow
  | [] => [p]
  | q :: qs => if p.created_at ≤ q.created_at then q :: insertDesc p qs else p :: q :: qs

/-- The `order by created_at descending` (newest first). -/
def sortPollsDesc : List PollRow → List PollRow
  | [] => []
  | p :: ps => insertDesc p (sortPollsDesc ps)

/-- Pair every list element with its index, starting at `k`. -/
def withIndexFrom (k : Nat) : List α → List (Nat × α)
  | [] => []
  | a :: as => (k, a) :: withIndexFrom (k + 1) as

/-- Pair every list element with its index (JS `Array.prototype.map`'s
second callback argument). -/
def withIndex (xs : List α) : List (Nat × α) :=
  withIndexFrom 0 xs

/-- Payload of `.from('polls').insert(...)`. -/
structure PollInsertData where
  title : String
  created_by : Nat
  end_date : Option String
deriving Repr, DecidableEq

/-- Payload of one row of `.from('poll_options').insert(...)`. -/
structure OptionInsertData where
  poll_id : Nat
  text : String
  position : Option Nat
deriving Repr, DecidableEq

/-- Payload of `.from('poll_analytics').insert(...)`. -/
structure AnalyticsInsertData where
  poll_id : Nat
  views : Nat
  shares : Nat
deriving Repr, DecidableEq

/-- The `.from('polls').insert(d).select().single()`: inserts one poll row
(defaults: `is_public = true`, timestamps = clock) and returns it. -/
def pollsInsertSelectSingle (d : PollInsertData) (s : DBState) :
    Except Unit PollRow × DBState :=
  call s fun s =>
    let r : PollRow :=
      { id := s.nextId, title := d.title, created_by := d.created_by,
        is_public := true, end_date := d.end_date,
        created_at := s.time, updated_at := s.time }
    (.ok r, { s with polls := s.polls ++ [r], nextId := s.nextId + 1,
                     time := s.time + 1, log := s.log ++ [.insertPoll r] })

/-- Materialize a batch of option rows with fresh ids. -/
def mkOptionRows (s : DBState) (ds : List OptionInsertData) : List OptionRow :=
  (withIndex ds).map (fun p =>
    { id := s.nextId + p.1, poll_id := p.2.poll_id, text := p.2.text,
      position := p.2.position, created_at := s.time })

/-- The `.from('poll_options').insert(ds).select()`.  The statement is atomic:
it errors (inserting nothing) if any row violates the NOT NULL constraint
on `position` (`position integer not null` in the schema, with no default)
or the foreign key to `polls`. -/
def pollOptionsInsertSelect (ds : List OptionInsertData) (s : DBState) :
    Except Unit (List OptionRow) × DBState :=
  call s fun s =>
  if ds.all (fun d => d.position.isSome &&
               s.polls.any (fun p => p.id == d.poll_id)) then
    let rs := mkOptionRows s ds
    (.ok rs, { s with poll_options := s.poll_options ++ rs,
                      nextId := s.nextId + ds.length, time := s.time + 1,
                      log := s.log ++ [.insertOptions rs] })
  else (.error (), s)

/-- The `.from('poll_analytics').insert(d)`: plain insert, `unique_voters`
defaults to 0.  The table has no unique constraint, so repeated inserts for
one poll would each add a row. -/
def pollAnalyticsInsert (d : AnalyticsInsertData) (s : DBState) :
    Except Unit Unit × DBState :=
  call s fun s =>
  if s.polls.any (fun p => p.id == d.poll_id) then
    let r : AnalyticsRow :=
      { id := s.nextId, poll_id := d.poll_id, views := d.views,
        shares := d.shares, unique_voters := 0 }
    (.ok (), { s with poll_analytics := s.poll_analytics ++ [r],
                      nextId := s.nextId + 1, time := s.time + 1,
                      log := s.log ++ [.insertAnalytics r] })
  else (.error (), s)

/-- The `.from('polls').select('*, poll_options(*), votes(count)').eq('id', id)
.single()`: the joined read; `.single()` errors when no row matches. -/
def pollsSelectJoinedSingle (id : Nat) (s : DBState) :
    Except Unit (PollRow × List OptionRow × Nat) × DBState :=
  call s fun s =>
    match findPoll s id with
    | none => (.error (), s)
    | some p => (.ok (p, optionsOfPoll s id, voteCountOfPoll s id), s)

/-- The joined read over all polls, ordered by `created_at` descending. -/
def pollsSelectAllJoined (s : DBState) :
    Except Unit (List (PollRow × List OptionRow × Nat)) × DBState :=
  call s fun s =>
    (.ok ((sortPollsDesc s.polls).map
      (fun p => (p, optionsOfPoll s p.id, voteCountOfPoll s p.id))), s)

/-- The joined read filtered by `created_by`, ordered newest first. -/
def pollsSelectByUserJoined (uid : Nat) (s : DBState) :
    Except Unit (List (PollRow × List OptionRow × Nat)) × DBState :=
  call s fun s =>
    (.ok ((sortPollsDesc (s.polls.filter (fun p => p.created_by == uid))).map
      (fun p => (p, optionsOfPoll s p.id, voteCountOfPoll s p.id))), s)

/-- The `.from('polls').select('*').eq('id', id).single()`. -/
def pollsSelectSingle (id : Nat) (s : DBState) : Except Unit PollRow × DBState :=
  call s fun s =>
    match findPoll s id with
    | none => (.error (), s)
    | some p => (.ok p, s)

/-- The `.from('polls').select('*').order('created_at', descending)`. -/
def pollsSelectAll (s : DBState) : Except Unit (List PollRow) × DBState :=
  call s fun s => (.ok (sortPollsDesc s.polls), s)

/-- The `.from('polls').select('*').eq('created_by', uid).order(...)`. -/
def pollsSelectByUser (uid : Nat) (s : DBState) :
    Except Unit (List PollRow) × DBState :=
  call s fun s =>
    (.ok (sortPollsDesc (s.polls.filter (fun p => p.created_by == uid))), s)

/-- The `.from('poll_options').select('*').eq('poll_id', pid)`. -/
def pollOptionsSelectByPoll (pid : Nat) (s : DBState) :
    Except Unit (List OptionRow) × DBState :=
  call s fun s => (.ok (optionsOfPoll s pid), s)

/-- The `.from('votes').select('*', count exact, head).eq('poll_id', pid)`. -/
def votesCountByPoll (pid : Nat) (s : DBState) : Except Unit Nat × DBState :=
  call s fun s => (.ok (voteCountOfPoll s pid), s)

/-- The `.from('polls').update(fields).eq('id', id).select().single()`: updates
title and end date; the `set_polls_updated_at` trigger stamps `updated_at`.
An `end_date` of `none` models an absent key (dropped by JSON
serialization, column unchanged); `.single()` errors when no row matched. -/
def pollsUpdateSelectSingle (id : Nat) (title : String)
    (end_date : Option (Option String)) (s : DBState) :
    Except Unit PollRow × DBState :=
  call s fun s =>
    match findPoll s id with
    | none => (.error (), s)
    | some p =>
      let r : PollRow :=
        { p with title := title, end_date := end_date.getD p.end_date,
                 updated_at := s.time }
      (.ok r, { s with polls := s.polls.map (fun q => if q.id == id then r else q),
                       time := s.time + 1, log := s.log ++ [.updatePollRow r] })

/-- The `.from('poll_options').delete().eq('poll_id', pid)`: deletes the poll's
options; the `on delete cascade` foreign key on `votes.option_id` removes
the votes referencing them. -/
def pollOptionsDeleteByPoll (pid : Nat) (s : DBState) :
    Except Unit Unit × DBState :=
  call s fun s =>
    let deletedIds := (optionsOfPoll s pid).map (fun o => o.id)
    (.ok (), { s with poll_options := s.poll_options.filter (fun o => !(o.poll_id == pid)),
                      votes := s.votes.filter (fun v => !(deletedIds.contains v.option_id)),
                      time := s.time + 1, log := s.log ++ [.deleteOptionsOfPoll pid] })

/-- The `.from('polls').delete().eq('id', id)`: cascade-deletes the poll's
options, votes and analytics rows; succeeds even when no row matches. -/
def pollsDeleteById (id : Nat) (s : DBState) : Except Unit Unit × DBState :=
  call s fun s =>
    let deletedOptionIds := (optionsOfPoll s id).map (fun o => o.id)
    (.ok (), { s with polls := s.polls.filter (fun p => !(p.id == id)),
                      poll_options := s.poll_options.filter (fun o => !(o.poll_id == id)),
                      votes := s.votes.filter (fun v =>
                        !(v.poll_id == id || deletedOptionIds.contains v.option_id)),
                      poll_analytics := s.poll_analytics.filter (fun a => !(a.poll_id == id)),
                      time := s.time + 1, log := s.log ++ [.deletePollRow id] })

/-! ### Vote insertion (schema level)

Votes are written only through the store: the schema's row-level-security
policy "Users can vote on public polls", the `unique(user_id, option_id)`
constraint, the foreign keys, and the `update_analytics_on_vote` AFTER
INSERT trigger all act on the insert. -/

/-- Payload of `.from('votes').insert(...)`. -/
structure VoteInsertData where
  poll_id : Nat
  option_id : Nat
  user_id : Nat
deriving Repr, DecidableEq

/-- Distinct failure modes of a vote insert, as surfaced by PostgreSQL. -/
inductive VoteErr where
  | policyViolation
  | uniqueViolation
  | fkViolation
  | triggerFailure
deriving Repr, DecidableEq

/-- Whether the schema declares a unique or exclusion constraint on
`poll_analytics.poll_id`.  `create table public.poll_analytics` declares
only the `id` primary key and a plain foreign key on `poll_id`, so this is
`false`, and the trigger body's `insert ... on conflict (poll_id) do
update` has no arbiter index: PostgreSQL rejects that statement whenever it
executes (error 42P10). -/
def analyticsHasUniqueOnPollId : Bool := false

/-- The RLS policy "Users can vote on public polls": the target poll is
public and not ended, and the inserted `user_id` is the acting identity. -/
def votePolicyOk (s : DBState) (auth : Nat) (now : String) (d : VoteInsertData) : Bool :=
  (s.polls.any (fun p => p.id == d.poll_id && p.is_public &&
    (match p.end_date with
     | none => true
     | some e => decide (now < e)))) && d.user_id == auth

/-- Whether a vote by the same user on the same option already exists —
the `unique(user_id, option_id)` constraint's conflict test. -/
def voteDuplicate (s : DBState) (d : VoteInsertData) : Bool :=
  s.votes.any (fun v => v.user_id == d.user_id && v.option_id == d.option_id)

/-- Number of distinct voters of a poll (`count(distinct user_id)`). -/
def distinctVoters (votes : List VoteRow) (pid : Nat) : Nat :=
  ((votes.filter (fun v => v.poll_id == pid)).map (fun v => v.user_id)).eraseDups.length

/-- The body of `update_poll_analytics_on_vote`: upsert the poll's
analytics row keyed on `poll_id`.  Because the schema declares no unique
constraint on `poll_id` (`analyticsHasUniqueOnPollId = false`), the
`on conflict (poll_id)` clause has no arbiter and the statement errors. -/
def triggerUpsertAnalytics (pid : Nat) (uv : Nat) (s : DBState) :
    Except VoteErr DBState :=
  if analyticsHasUniqueOnPollId then
    match s.poll_analytics.find? (fun a => a.poll_id == pid) with
    | some _ =>
      .ok { s with poll_analytics := s.poll_analytics.map (fun a =>
              if a.poll_id == pid then { a with unique_voters := uv } else a) }
    | none =>
      let r : AnalyticsRow :=
        { id := s.nextId, poll_id := pid, views := 0, shares := 0,
          unique_voters := 1 }
      .ok { s with poll_analytics := s.poll_analytics ++ [r],
                   nextId := s.nextId + 1 }
  else .error .triggerFailure

/-- The `.from('votes').insert(d)` with the acting identity `auth` at time
`now`: RLS policy, uniqueness and foreign-key checks, then the row insert
followed by the AFTER INSERT trigger; an error in the trigger aborts the
whole statement, so the vote row is not kept. -/
def votesInsert (auth : Nat) (now : String) (d : VoteInsertData) (s : DBState) :
    Except VoteErr Unit × DBState :=
  if !votePolicyOk s auth now d then (.error .policyViolation, s)
  else if voteDuplicate s d then (.error .uniqueViolation, s)
  else if !(s.poll_options.any (fun o => o.id == d.option_id)) then
    (.error .fkViolation, s)
  else
    let r : VoteRow := { id := s.nextId, poll_id := d.poll_id,
                         option_id := d.option_id, user_id := d.user_id }
    let votes' := s.votes ++ [r]
    match triggerUpsertAnalytics d.poll_id (distinctVoters votes' d.poll_id)
        { s with votes := votes', nextId := s.nextId + 1,
                 log := s.log ++ [.insertVote r] } with
    | .error e => (.error e, s)
    | .ok s' => (.ok (), s')

/-- The `delete from votes` gated by the policy "Users can delete their own
votes": only the caller's own row is visible to the delete. -/
def votesDeleteOwn (auth : Nat) (vid : Nat) (s : DBState) : DBState :=
  { s with votes := s.votes.filter (fun v => !(v.id == vid && v.user_id == auth)) }

/-! ### The store client interface

`PollRepository`'s constructor accepts any `SupabaseClient`; the repository
methods are therefore embedded generically over a record of the store calls
they issue, instantiated below with the concrete store semantics
(`dbClient`) and, for the unit-test-style analysis, with a scripted mock. -/

/-- The store calls used by the two repository versions, over an abstract
client state `σ`. -/
structure Client (σ : Type) where
  pollsInsertSelectSingle : PollInsertData → σ → Except Unit PollRow × σ
  pollOptionsInsertSelect : List OptionInsertData → σ → Except Unit (List OptionRow) × σ
  pollAnalyticsInsert : AnalyticsInsertData → σ → Except Unit Unit × σ
  pollsSelectJoinedSingle : Nat → σ → Except Unit (PollRow × List OptionRow × Nat) × σ
  pollsSelectAllJoined : σ → Except Unit (List (PollRow × List OptionRow × Nat)) × σ
  pollsSelectByUserJoined : Nat → σ → Except Unit (List (PollRow × List OptionRow × Nat)) × σ
  pollsSelectSingle : Nat → σ → Except Unit PollRow × σ
  pollsSelectAll : σ → Except Unit (List PollRow) × σ
  pollsSelectByUser : Nat → σ → Except Unit (List PollRow) × σ
  pollOptionsSelectByPoll : Nat → σ → Except Unit (List OptionRow) × σ
  votesCountByPoll : Nat → σ → Except Unit Nat × σ
  pollsUpdateSelectSingle : Nat → String → Option (Option String) → σ → Except Unit PollRow × σ
  pollOptionsDeleteByPoll : Nat → σ → Except Unit Unit × σ
  pollsDeleteById : Nat → σ → Except Unit Unit × σ

/-- The concrete store semantics as a client. -/
def dbClient : Client DBState where
  pollsInsertSelectSingle := pollsInsertSelectSingle
  pollOptionsInsertSelect := pollOptionsInsertSelect
  pollAnalyticsInsert := pollAnalyticsInsert
  pollsSelectJoinedSingle := pollsSelectJoinedSingle
  pollsSelectAllJoined := pollsSelectAllJoined
  pollsSelectByUserJoined := pollsSelectByUserJoined
  pollsSelectSingle := pollsSelectSingle
  pollsSelectAll := pollsSelectAll
  pollsSelectByUser := pollsSelectByUser
  pollOptionsSelectByPoll := pollOptionsSelectByPoll
  votesCountByPoll := votesCountByPoll
  pollsUpdateSelectSingle := pollsUpdateSelectSingle
  pollOptionsDeleteByPoll := pollOptionsDeleteByPoll
  pollsDeleteById := pollsDeleteById

/-! ### PollRepository — `src/lib/repositories/poll-repository.ts`
(the single-joined-query version). -/

namespace PollRepository

variable {σ : Type}

/-- The `createPoll(data, userId)`: insert the poll row, insert one option row
per option text (the code supplies no `position`, hence `position :=
none`), fire-and-forget the analytics insert, and return the assembled
poll; `null` on a poll-insert or option-insert error. -/
def createPoll (c : Client σ) (data : CreatePollInput) (userId : Nat) (s : σ) :
    Option PollWithOptions × σ :=
  match c.pollsInsertSelectSingle
      { title := data.title, created_by := userId,
        end_date := data.end_date.join } s with
  | (.error _, s) => (none, s)
  | (.ok poll, s) =>
    let pollOptionsData := data.options.map (fun option =>
      ({ poll_id := poll.id, text := option, position := none } : OptionInsertData))
    match c.pollOptionsInsertSelect pollOptionsData s with
    | (.error _, s) => (none, s)
    | (.ok options, s) =>
      let (_, s) := c.pollAnalyticsInsert
        { poll_id := poll.id, views := 0, shares := 0 } s
      (some { poll := poll, options := options, votesCount := none }, s)

/-- The `getPollById(id)`: one joined read; `null` on error or no match. -/
def getPollById (c : Client σ) (id : Nat) (s : σ) :
    Option PollWithOptions × σ :=
  match c.pollsSelectJoinedSingle id s with
  | (.error _, s) => (none, s)
  | (.ok (poll, poll_options, n), s) =>
    (some { poll := poll, options := poll_options, votesCount := some n }, s)

/-- The `getAllPolls()`: one joined read over all polls, newest first; the
empty list on error. -/
def getAllPolls (c : Client σ) (s : σ) : List PollWithOptions × σ :=
  match c.pollsSelectAllJoined s with
  | (.error _, s) => ([], s)
  | (.ok rows, s) =>
    (rows.map (fun row => { poll := row.1, options := row.2.1,
                            votesCount := some row.2.2 }), s)

/-- The `getUserPolls(userId)`: as `getAllPolls`, filtered by creator. -/
def getUserPolls (c : Client σ) (userId : Nat) (s : σ) :
    List PollWithOptions × σ :=
  match c.pollsSelectByUserJoined userId s with
  | (.error _, s) => ([], s)
  | (.ok rows, s) =>
    (rows.map (fun row => { poll := row.1, options := row.2.1,
                            votesCount := some row.2.2 }), s)

/-- The `deletePoll(id)`: one cascade delete; throws on store error. -/
def deletePoll (c : Client σ) (id : Nat) (s : σ) : Except Unit Unit × σ :=
  match c.pollsDeleteById id s with
  | (.error _, s) => (.error (), s)
  | (.ok _, s) => (.ok (), s)

/-- The `updatePoll(id, data)`: update the poll row, delete all its options,
insert the new options with `position = array index`; `null` on any
error. -/
def updatePoll (c : Client σ) (id : Nat) (data : CreatePollInput) (s : σ) :
    Option PollWithOptions × σ :=
  match c.pollsUpdateSelectSingle id data.title data.end_date s with
  | (.error _, s) => (none, s)
  | (.ok poll, s) =>
    match c.pollOptionsDeleteByPoll id s with
    | (.error _, s) => (none, s)
    | (.ok _, s) =>
      let pollOptionsData := (withIndex data.options).map (fun p =>
        ({ poll_id := id, text := p.2, position := some p.1 } : OptionInsertData))
      match c.pollOptionsInsertSelect pollOptionsData s with
      | (.error _, s) => (none, s)
      | (.ok options, s) =>
        (some { poll := poll, options := options, votesCount := none }, s)

end PollRepository

/-! ### PollRepositoryMulti — the second `PollRepository` version present
in the repository (per-poll multi-query reads). -/

namespace PollRepositoryMulti

variable {σ : Type}

/-- The `createPoll(data, userId)` of the multi-query version: the same three
inserts (options again without `position`). -/
def createPoll (c : Client σ) (data : CreatePollInput) (userId : Nat) (s : σ) :
    Option PollWithOptions × σ :=
  match c.pollsInsertSelectSingle
      { title := data.title, created_by := userId,
        end_date := data.end_date.join } s with
  | (.error _, s) => (none, s)
  | (.ok poll, s) =>
    let pollOptionsData := data.options.map (fun option =>
      ({ poll_id := poll.id, text := option, position := none } : OptionInsertData))
    match c.pollOptionsInsertSelect pollOptionsData s with
    | (.error _, s) => (none, s)
    | (.ok options, s) =>
      let (_, s) := c.pollAnalyticsInsert
        { poll_id := poll.id, views := 0, shares := 0 } s
      (some { poll := poll, options := options, votesCount := none }, s)

/-- The `getPollById(id)` of the multi-query version: select the poll, select
its options, count its votes; the count error is silently dropped
(`count || 0`). -/
def getPollById (c : Client σ) (id : Nat) (s : σ) :
    Option PollWithOptions × σ :=
  match c.pollsSelectSingle id s with
  | (.error _, s) => (none, s)
  | (.ok poll, s) =>
    match c.pollOptionsSelectByPoll id s with
    | (.error _, s) => (none, s)
    | (.ok options, s) =>
      let (countRes, s) := c.votesCountByPoll id s
      (some { poll := poll, options := options,
              votesCount := some (match countRes with
                | .ok n => n
                | .error _ => 0) }, s)

/-- Fetch one poll's options and vote count (the body of the `Promise.all`
loop); both errors are silently defaulted (`options || []`, `count || 0`). -/
def fetchPollExtras (c : Client σ) (poll : PollRow) (s : σ) :
    PollWithOptions × σ :=
  let (optRes, s) := c.pollOptionsSelectByPoll poll.id s
  let (countRes, s) := c.votesCountByPoll poll.id s
  ({ poll := poll,
     options := (match optRes with | .ok os => os | .error _ => []),
     votesCount := some (match countRes with | .ok n => n | .error _ => 0) }, s)

/-- State-threading map (the sequentialization of the `Promise.all`). -/
def mapState (f : α → σ → β × σ) : List α → σ → List β × σ
  | [], s => ([], s)
  | a :: as, s =>
    let (b, s) := f a s
    let (bs, s') := mapState f as s
    (b :: bs, s')

/-- The `getAllPolls()` of the multi-query version. -/
def getAllPolls (c : Client σ) (s : σ) : List PollWithOptions × σ :=
  match c.pollsSelectAll s with
  | (.error _, s) => ([], s)
  | (.ok polls, s) => mapState (fetchPollExtras c) polls s

/-- The `getUserPolls(userId)` of the multi-query version. -/
def getUserPolls (c : Client σ) (userId : Nat) (s : σ) :
    List PollWithOptions × σ :=
  match c.pollsSelectByUser userId s with
  | (.error _, s) => ([], s)
  | (.ok polls, s) => mapState (fetchPollExtras c) polls s

/-- The `deletePoll(id)` of the multi-query version (identical body). -/
def deletePoll (c : Client σ) (id : Nat) (s : σ) : Except Unit Unit × σ :=
  match c.pollsDeleteById id s with
  | (.error _, s) => (.error (), s)
  | (.ok _, s) => (.ok (), s)

/-- The `updatePoll(id, data)` of the multi-query version; its only textual
difference from the other version (`if (pollError)` instead of
`if (pollError || !poll)`) is invisible here because `.single()` errors
whenever it yields no row. -/
def updatePoll (c : Client σ) (id : Nat) (data : CreatePollInput) (s : σ) :
    Option PollWithOptions × σ :=
  match c.pollsUpdateSelectSingle id data.title data.end_date s with
  | (.error _, s) => (none, s)
  | (.ok poll, s) =>
    match c.pollOptionsDeleteByPoll id s with
    | (.error _, s) => (none, s)
    | (.ok _, s) =>
      let pollOptionsData := (withIndex data.options).map (fun p =>
        ({ poll_id := id, text := p.2, position := some p.1 } : OptionInsertData))
      match c.pollOptionsInsertSelect pollOptionsData s with
      | (.error _, s) => (none, s)
      | (.ok options, s) =>
        (some { poll := poll, options := options, votesCount := none }, s)

end PollRepositoryMulti

/-! ### The poll input validator — `createPollSchema` (zod). -/

/-- A JSON value, as received by `request.json()`. -/
inductive Json where
  | str (s : String)
  | num (n : Int)
  | boolVal (b : Bool)
  | nullVal
  | arr (xs : List Json)

/-- The relevant fields of a raw request body; `none` models an absent
key.  Unknown keys are stripped by the zod object schema and are not
represented. -/
structure RawInput where
  title : Option Json
  options : Option Json
  end_date : Option Json

/-- One validation issue, mirroring the zod issues of `createPollSchema`
(one per violated rule; per-option issues carry the element index). -/
inductive Violation where
  | titleInvalidType
  | titleTooShort
  | titleTooLong
  | optionsInvalidType
  | optionsTooFew
  | optionsTooMany
  | optionInvalidType (i : Nat)
  | optionTooShort (i : Nat)
  | optionTooLong (i : Nat)
  | endDateInvalidType
deriving Repr, DecidableEq

/-- The typed value produced by a successful parse
(`CreatePollFormValues`). -/
structure ParsedPollInput where
  title : String
  options : List String
  end_date : Option (Option String)
deriving Repr, DecidableEq

/-- The `title: z.string().min(5).max(255)`. -/
def checkTitle : Option Json → Except (List Violation) String
  | some (.str t) =>
    let es := (if t.length < 5 then [Violation.titleTooShort] else []) ++
              (if 255 < t.length then [Violation.titleTooLong] else [])
    if es.isEmpty then .ok t else .error es
  | _ => .error [Violation.titleInvalidType]

/-- One element of `options`: `z.string().min(1).max(100)`. -/
def checkOptionElem (i : Nat) : Json → List Violation
  | .str t =>
    (if t.length < 1 then [Violation.optionTooShort i] else []) ++
    (if 100 < t.length then [Violation.optionTooLong i] else [])
  | _ => [Violation.optionInvalidType i]

/-- The string carried by a `Json.str`, if any. -/
def jsonStr : Json → Option String
  | .str t => some t
  | _ => none

/-- The `options: z.array(elem).min(2).max(10)`. -/
def checkOptions : Option Json → Except (List Violation) (List String)
  | some (.arr xs) =>
    let es := (if xs.length < 2 then [Violation.optionsTooFew] else []) ++
              (if 10 < xs.length then [Violation.optionsTooMany] else []) ++
              ((withIndex xs).map (fun p => checkOptionElem p.1 p.2)).flatten
    if es.isEmpty then .ok (xs.filterMap jsonStr) else .error es
  | _ => .error [Violation.optionsInvalidType]

/-- The `end_date: z.string().nullable().optional()`: absent or `undefined` is
accepted, `null` is accepted, a string is accepted, anything else is a type
error. -/
def checkEndDate : Option Json → Except (List Violation) (Option (Option String))
  | none => .ok none
  | some .nullVal => .ok (some none)
  | some (.str t) => .ok (some (some t))
  | some _ => .error [Violation.endDateInvalidType]

/-- The issues of a field parse, empty on success. -/
def errsOf : Except (List Violation) α → List Violation
  | .error es => es
  | .ok _ => []

/-- The `createPollSchema.safeParse`: parse the three fields, accumulating the
issues of every field (the zod object schema does not stop at the first
failing field); a pure function of its input. -/
def createPollSchemaParse (r : RawInput) : Except (List Violation) ParsedPollInput :=
  match checkTitle r.title, checkOptions r.options, checkEndDate r.end_date with
  | .ok t, .ok os, .ok e => .ok { title := t, options := os, end_date := e }
  | rt, ro, re => .error (errsOf rt ++ errsOf ro ++ errsOf re)

/-- Title condition exactly as the claim's sentence states it: a string of
length in [5,255].  (Spec-side shape, for comparison with the code's
validator.) -/
def titleShapeOk : Option Json → Bool
  | some (.str t) => 5 ≤ t.length && t.length ≤ 255
  | _ => false

/-- One option as the claim states it: a string of length in [1,100]. -/
def optionElemShapeOk : Json → Bool
  | .str t => 1 ≤ t.length && t.length ≤ 100
  | _ => false

/-- Options condition as the claim states it: an array of 2 to 10 strings,
each of length in [1,100]. -/
def optionsShapeOk : Option Json → Bool
  | some (.arr xs) => 2 ≤ xs.length && xs.length ≤ 10 && xs.all optionElemShapeOk
  | _ => false

/-- The claim's full acceptance condition (it says nothing about
`end_date`). -/
def claimValidShape (r : RawInput) : Bool :=
  titleShapeOk r.title && optionsShapeOk r.options

/-- The additional condition the code enforces: `end_date`, when present,
is a string or null. -/
def endDateShapeOk : Option Json → Bool
  | none => true
  | some .nullVal => true
  | some (.str _) => true
  | some _ => false

/-- A raw input meeting every condition the claim lists, carrying a
boolean `end_date`. -/
def boolEndDateInput : RawInput :=
  { title := some (.str "Hello"),
    options := some (.arr [.str "A", .str "B"]),
    end_date := some (.boolVal true) }

/-! ### HTTP handlers for `/api/polls/[id]` (GET, PUT, DELETE). -/

/-- The observable outcome of a handler: a JSON success body or an HTTP
error status. -/
inductive ApiResult where
  | okPoll (poll : Option PollWithOptions)
  | okDeleted
  | err (status : Nat)
deriving Repr, DecidableEq

namespace Api

/-- The `GET /api/polls/[id]`: read via the repository; 404 when it yields
null. -/
def getPoll (id : Nat) (s : DBState) : ApiResult × DBState :=
  match PollRepository.getPollById dbClient id s with
  | (none, s) => (.err 404, s)
  | (some poll, s) => (.okPoll (some poll), s)

/-- The `PUT /api/polls/[id]` with acting identity `auth` (`none` = no
session): 401 without identity, then 404 when the poll is not found, then
403 when the caller is not the creator, then 400 on invalid body, then the
repository update (the update's own null result is still answered 200). -/
def putPoll (auth : Option Nat) (id : Nat) (body : RawInput) (s : DBState) :
    ApiResult × DBState :=
  match auth with
  | none => (.err 401, s)
  | some user =>
    match PollRepository.getPollById dbClient id s with
    | (none, s) => (.err 404, s)
    | (some poll, s) =>
      if poll.poll.created_by ≠ user then (.err 403, s)
      else
        match createPollSchemaParse body with
        | .error _ => (.err 400, s)
        | .ok v =>
          match PollRepository.updatePoll dbClient id
              { title := v.title, options := v.options, end_date := v.end_date } s with
          | (updated, s) => (.okPoll updated, s)

/-- The `DELETE /api/polls/[id]`: the same 401 / 404 / 403 sequence, then the
repository delete (a throw is caught and answered 500). -/
def deletePoll (auth : Option Nat) (id : Nat) (s : DBState) :
    ApiResult × DBState :=
  match auth with
  | none => (.err 401, s)
  | some user =>
    match PollRepository.getPollById dbClient id s with
    | (none, s) => (.err 404, s)
    | (some poll, s) =>
      if poll.poll.created_by ≠ user then (.err 403, s)
      else
        match PollRepository.deletePoll dbClient id s with
        | (.error _, s) => (.err 500, s)
        | (.ok _, s) => (.okDeleted, s)

end Api

/-! ### A scripted mock client (the shape used by the repository's jest
tests): each insert call returns a preconfigured outcome. -/

/-- Scripted outcomes for the three inserts issued by `createPoll`. -/
structure MockOutcomes where
  pollRes : Except Unit PollRow
  optionsRes : Except Unit (List OptionRow)
  analyticsRes : Except Unit Unit
deriving Repr

/-- The mock client: insert calls return the scripted outcomes and leave
the script unchanged; the calls unused by `createPoll` error. -/
def mockClient : Client MockOutcomes where
  pollsInsertSelectSingle := fun _ m => (m.pollRes, m)
  pollOptionsInsertSelect := fun _ m => (m.optionsRes, m)
  pollAnalyticsInsert := fun _ m => (m.analyticsRes, m)
  pollsSelectJoinedSingle := fun _ m => (.error (), m)
  pollsSelectAllJoined := fun m => (.error (), m)
  pollsSelectByUserJoined := fun _ m => (.error (), m)
  pollsSelectSingle := fun _ m => (.error (), m)
  pollsSelectAll := fun m => (.error (), m)
  pollsSelectByUser := fun _ m => (.error (), m)
  pollOptionsSelectByPoll := fun _ m => (.error (), m)
  votesCountByPoll := fun _ m => (.error (), m)
  pollsUpdateSelectSingle := fun _ _ _ m => (.error (), m)
  pollOptionsDeleteByPoll := fun _ m => (.error (), m)
  pollsDeleteById := fun _ m => (.error (), m)

/-- A sample poll row for scripted outcomes. -/
def mockPollRow : PollRow :=
  { id := 11, title := "Best editor?", created_by := 3, is_public := true,
    end_date := none, created_at := 0, updated_at := 0 }

/-- A sample public poll row with a chosen id and creator. -/
def samplePoll (id creator : Nat) : PollRow :=
  { id := id, title := "Best language?", created_by := creator,
    is_public := true, end_date := none, created_at := 0, updated_at := 0 }

/-- A store holding one poll, whose next store call has an injected
failure. -/
def failingStore : DBState :=
  { polls := [samplePoll 1 2], poll_options := [], votes := [],
    poll_analytics := [], sched := [true], time := 5, nextId := 9, log := [] }

/-- A store holding one poll created by user 2, with no injected
failures. -/
def ownStore : DBState :=
  { polls := [samplePoll 1 2], poll_options := [], votes := [],
    poll_analytics := [], sched := [], time := 5, nextId := 9, log := [] }

/-- What `getPollById` observes for the poll of `ownStore`. -/
def ownPollView : PollWithOptions :=
  { poll := samplePoll 1 2, options := [], votesCount := some 0 }

/-- A two-option update input. -/
def c2Input : CreatePollInput :=
  { title := "Updated title", options := ["A", "B"], end_date := some none }

/-- A store holding poll 1 with one pre-existing option. -/
def c2State : DBState :=
  { polls := [samplePoll 1 2],
    poll_options := [{ id := 5, poll_id := 1, text := "Old",
                       position := some 0, created_at := 0 }],
    votes := [], poll_analytics := [], sched := [], time := 5, nextId := 9,
    log := [] }

/-- The value `updatePoll 1 c2Input` returns on `c2State`. -/
def c2Pw : PollWithOptions :=
  { poll := { id := 1, title := "Updated title", created_by := 2,
              is_public := true, end_date := none, created_at := 0,
              updated_at := 5 },
    options := [{ id := 9, poll_id := 1, text := "A", position := some 0,
                  created_at := 7 },
                { id := 10, poll_id := 1, text := "B", position := some 1,
                  created_at := 7 }],
    votesCount := none }

/-! ### Reachable store states. -/

/-- The operations through which the store evolves: the repository's three
mutating operations and the schema-level vote insert and own-vote delete. -/
inductive Op where
  | create (input : CreatePollInput) (userId : Nat)
  | update (id : Nat) (input : CreatePollInput)
  | delete (id : Nat)
  | vote (auth : Nat) (now : String) (d : VoteInsertData)
  | unvote (auth : Nat) (voteId : Nat)

/-- Apply one operation, keeping the resulting state. -/
def applyOp (s : DBState) : Op → DBState
  | .create input u => (PollRepository.createPoll dbClient input u s).2
  | .update id input => (PollRepository.updatePoll dbClient id input s).2
  | .delete id => (PollRepository.deletePoll dbClient id s).2
  | .vote a n d => (votesInsert a n d s).2
  | .unvote a vid => votesDeleteOwn a vid s

/-- The empty store with failure schedule `fs`. -/
def initState (fs : List Bool) : DBState :=
  { polls := [], poll_options := [], votes := [], poll_analytics := [],
    sched := fs, time := 0, nextId := 0, log := [] }

/-- Run a sequence of operations from the empty store. -/
def runOps (fs : List Bool) (ops : List Op) : DBState :=
  ops.foldl applyOp (initState fs)

/-- No two vote rows share the same `(user_id, option_id)` pair. -/
def VotesUnique (s : DBState) : Prop :=
  ∀ v ∈ s.votes, ∀ w ∈ s.votes,
    v.user_id = w.user_id → v.option_id = w.option_id → v = w

/-- A store ready for a first vote: a public poll with one option and the
analytics row `createPoll` would have written. -/
def c8State : DBState :=
  { polls := [samplePoll 1 2],
    poll_options := [{ id := 5, poll_id := 1, text := "A",
                       position := some 0, created_at := 0 }],
    votes := [],
    poll_analytics := [{ id := 6, poll_id := 1, views := 0, shares := 0,
                         unique_voters := 0 }],
    sched := [], time := 5, nextId := 9, log := [] }

/-- A store where user 7 already voted on option 5 of poll 1, which also
has a second option 6. -/
def c7State : DBState :=
  { polls := [samplePoll 1 2],
    poll_options := [{ id := 5, poll_id := 1, text := "A",
                       position := some 0, created_at := 0 },
                     { id := 6, poll_id := 1, text := "B",
                       position := some 1, created_at := 0 }],
    votes := [{ id := 8, poll_id := 1, option_id := 5, user_id := 7 }],
    poll_analytics := [{ id := 7, poll_id := 1, views := 0, shares := 0,
                         unique_voters := 0 }],
    sched := [], time := 5, nextId := 9, log := [] }

/-- User 7 voting again on option 5 (a duplicate). -/
def vote1Dup : VoteInsertData := { poll_id := 1, option_id := 5, user_id := 7 }

/-- User 7 voting on the second option 6 of the same poll. -/
def vote2New : VoteInsertData := { poll_id := 1, option_id := 6, user_id := 7 }

/-- Whether an `Except` result is a success. -/
def exceptIsOk : Except ε α → Bool
  | .ok _ => true
  | .error _ => false

/-- Two states with the same tables and the same write log (the failure
schedule and counters may differ): all repository reads observe them
identically. -/
def storeUnchanged (s t : DBState) : Prop :=
  t.polls = s.polls ∧ t.poll_options = s.poll_options ∧ t.votes = s.votes ∧
  t.poll_analytics = s.poll_analytics ∧ t.log = s.log

/-! ### Basic lemmas about store calls. -/

lemma call_sched_nil {α : Type} (s : DBState)
    (k : DBState → Except Unit α × DBState) (h : s.sched = []) :
    call s k = k s := by
  unfold call
  rw [h]

lemma call_sched_fail {α : Type} (s : DBState)
    (k : DBState → Except Unit α × DBState) (r : List Bool)
    (h : s.sched = true :: r) :
    call s k = (.error (), { s with sched := r }) := by
  unfold call
  rw [h]
  simp

lemma storeUnchanged_refl (s : DBState) : storeUnchanged s s :=
  ⟨rfl, rfl, rfl, rfl, rfl⟩

lemma storeUnchanged_sched (s : DBState) (r : List Bool) :
    storeUnchanged s { s with sched := r } :=
  ⟨rfl, rfl, rfl, rfl, rfl⟩

lemma call_storeUnchanged {α : Type} (s : DBState)
    (k : DBState → Except Unit α × DBState)
    (hk : ∀ t, storeUnchanged t (k t).2) :
    storeUnchanged s (call s k).2 := by
  unfold call
  cases hs : s.sched with
  | nil => exact hk s
  | cons b r =>
    cases b with
    | false =>
      simp only [Bool.false_eq_true, if_false]
      obtain ⟨h1, h2, h3, h4, h5⟩ := hk { s with sched := r }
      exact ⟨h1, h2, h3, h4, h5⟩
    | true => exact storeUnchanged_sched s r

/-- The joined single read leaves tables and log untouched. -/
lemma pollsSelectJoinedSingle_storeUnchanged (id : Nat) (s : DBState) :
    storeUnchanged s (pollsSelectJoinedSingle id s).2 := by
  unfold pollsSelectJoinedSingle
  apply call_storeUnchanged
  intro t
  cases findPoll t id <;> exact storeUnchanged_refl t

/-- The `getPollById` is a pure read: tables and log are unchanged. -/
lemma getPollById_storeUnchanged (id : Nat) (s : DBState) :
    storeUnchanged s (PollRepository.getPollById dbClient id s).2 := by
  have h := pollsSelectJoinedSingle_storeUnchanged id s
  simp only [PollRepository.getPollById, dbClient]
  rcases hj : pollsSelectJoinedSingle id s with ⟨r, t⟩
  rw [hj] at h
  cases r with
  | error e => exact h
  | ok v => obtain ⟨p, os, n⟩ := v; exact h

/-! ### C5 — error propagation of `createPoll`. -/

/-- C5: `createPoll` returns a null result exactly when the poll-row
insert or the option-row insert fails; when both succeed it returns the
assembled poll; and the outcome of the analytics insert (step c) never
changes the result. -/
theorem createPoll_failure_propagation :
    ∀ (m : MockOutcomes) (input : CreatePollInput) (userId : Nat),
      (((PollRepository.createPoll mockClient input userId m).1 = none) ↔
        (exceptIsOk m.pollRes = false ∨ exceptIsOk m.optionsRes = false)) ∧
      (∀ p os, m.pollRes = .ok p → m.optionsRes = .ok os →
        (PollRepository.createPoll mockClient input userId m).1 =
          some { poll := p, options := os, votesCount := none }) ∧
      (∀ m2 : MockOutcomes, m2.pollRes = m.pollRes →
        m2.optionsRes = m.optionsRes →
        (PollRepository.createPoll mockClient input userId m2).1 =
          (PollRepository.createPoll mockClient input userId m).1) := by
  intro m input userId
  refine ⟨?_, ?_, ?_⟩
  · obtain ⟨pr, orr, ar⟩ := m
    cases pr <;> cases orr <;>
      simp [PollRepository.createPoll, mockClient, exceptIsOk]
  · intro p os hp ho
    obtain ⟨pr, orr, ar⟩ := m
    simp only at hp ho
    subst hp
    subst ho
    simp [PollRepository.createPoll, mockClient]
  · intro m2 h1 h2
    obtain ⟨pr, orr, ar⟩ := m
    obtain ⟨pr2, or2, ar2⟩ := m2
    simp only at h1 h2
    subst h1
    subst h2
    cases pr2 <;> cases or2 <;>
      simp [PollRepository.createPoll, mockClient]

/-- Concrete instance: with the poll insert and option insert succeeding
and the analytics insert failing, `createPoll` still returns the assembled
poll. -/
theorem createPoll_failure_propagation_witness :
    (PollRepository.createPoll mockClient
        { title := "Best editor?", options := ["Vim", "Emacs"], end_date := none } 3
        { pollRes := .ok mockPollRow, optionsRes := .ok [], analyticsRes := .error () }).1 =
      some { poll := mockPollRow, options := [], votesCount := none } :=
  ((createPoll_failure_propagation
    { pollRes := .ok mockPollRow, optionsRes := .ok [], analyticsRes := .error () }
    { title := "Best editor?", options := ["Vim", "Emacs"], end_date := none }
    3).2.1 mockPollRow [] rfl rfl)

/-! ### C1 — the create/read round-trip. -/

/-- An option-row insert containing a row without `position` violates the
schema's NOT NULL constraint and errors. -/
lemma pollOptionsInsertSelect_missing_position (ds : List OptionInsertData)
    (s : DBState) (d : OptionInsertData) (hd : d ∈ ds) (hp : d.position = none) :
    (pollOptionsInsertSelect ds s).1 = .error () := by
  have hall : ∀ t : DBState,
      ds.all (fun e => e.position.isSome &&
        t.polls.any (fun p => p.id == e.poll_id)) = false := by
    intro t
    cases hall : ds.all (fun e => e.position.isSome &&
        t.polls.any (fun p => p.id == e.poll_id)) with
    | false => rfl
    | true =>
      have hx := List.all_eq_true.mp hall d hd
      rw [hp] at hx
      simp at hx
  unfold pollOptionsInsertSelect call
  cases hs : s.sched with
  | nil => simp [hall s]
  | cons b r => cases b <;> simp [hall]

/-- C1: the round-trip cannot start — `createPoll` inserts its option rows
without the NOT NULL `position` column, so whenever the input has at least
one option (every valid input has at least two) the option insert fails and
`createPoll` returns null, for every store state and acting user. -/
theorem createPoll_missing_position_fails :
    ∀ (s : DBState) (input : CreatePollInput) (userId : Nat),
      input.options ≠ [] →
      (PollRepository.createPoll dbClient input userId s).1 = none := by
  intro s input userId hne
  obtain ⟨o, os, ho⟩ := List.exists_cons_of_ne_nil hne
  simp only [PollRepository.createPoll, dbClient]
  rcases h1 : pollsInsertSelectSingle
      { title := input.title, created_by := userId,
        end_date := input.end_date.join } s with ⟨r1, s1⟩
  cases r1 with
  | error e => simp [h1]
  | ok poll =>
    have hmem : ({ poll_id := poll.id, text := o, position := none } :
        OptionInsertData) ∈ input.options.map (fun option =>
          ({ poll_id := poll.id, text := option, position := none } :
            OptionInsertData)) := by
      rw [ho, List.map_cons]
      exact List.mem_cons_self _ _
    have hx := pollOptionsInsertSelect_missing_position _ s1 _ hmem rfl
    rcases h2 : pollOptionsInsertSelect (input.options.map (fun option =>
        ({ poll_id := poll.id, text := option, position := none } :
          OptionInsertData))) s1 with ⟨r2, s2⟩
    rw [h2] at hx
    simp only at hx
    subst hx
    simp [h1, h2]

/-- Concrete instance: a perfectly valid two-option input fails on the
empty store. -/
theorem createPoll_missing_position_fails_witness :
    (["Red", "Blue"] : List String) ≠ [] ∧
    (PollRepository.createPoll dbClient
        { title := "Favorite color?", options := ["Red", "Blue"],
          end_date := none } 7 (initState [])).1 = none :=
  ⟨by simp,
   createPoll_missing_position_fails (initState [])
     { title := "Favorite color?", options := ["Red", "Blue"], end_date := none }
     7 (by simp)⟩

/-! ### C3 — the validator's acceptance condition. -/

lemma checkTitle_ok_iff (j : Option Json) :
    exceptIsOk (checkTitle j) = true ↔ titleShapeOk j = true := by
  cases j with
  | none => simp [checkTitle, titleShapeOk, exceptIsOk]
  | some x =>
    cases x with
    | str t =>
      by_cases h1 : t.length < 5 <;> by_cases h2 : 255 < t.length <;>
        (simp [checkTitle, titleShapeOk, exceptIsOk, h1, h2]; try omega)
    | num n => simp [checkTitle, titleShapeOk, exceptIsOk]
    | boolVal b => simp [checkTitle, titleShapeOk, exceptIsOk]
    | nullVal => simp [checkTitle, titleShapeOk, exceptIsOk]
    | arr xs => simp [checkTitle, titleShapeOk, exceptIsOk]

lemma checkOptionElem_nil_iff (i : Nat) (x : Json) :
    checkOptionElem i x = [] ↔ optionElemShapeOk x = true := by
  cases x with
  | str t =>
    by_cases h1 : t.length < 1 <;> by_cases h2 : 100 < t.length <;>
      (simp [checkOptionElem, optionElemShapeOk, h1, h2]; try omega)
  | num n => simp [checkOptionElem, optionElemShapeOk]
  | boolVal b => simp [checkOptionElem, optionElemShapeOk]
  | nullVal => simp [checkOptionElem, optionElemShapeOk]
  | arr xs => simp [checkOptionElem, optionElemShapeOk]

lemma optionElems_flatten_nil_iff (xs : List Json) : ∀ k : Nat,
    ((withIndexFrom k xs).map (fun p => checkOptionElem p.1 p.2)).flatten = [] ↔
      xs.all optionElemShapeOk = true := by
  induction xs with
  | nil => intro k; simp [withIndexFrom]
  | cons x xs ih =>
    intro k
    simp only [withIndexFrom, List.map_cons, List.flatten_cons, List.all_cons,
      List.append_eq_nil, Bool.and_eq_true]
    rw [checkOptionElem_nil_iff, ih (k + 1)]

lemma checkOptions_ok_iff (j : Option Json) :
    exceptIsOk (checkOptions j) = true ↔ optionsShapeOk j = true := by
  cases j with
  | none => simp [checkOptions, optionsShapeOk, exceptIsOk]
  | some x =>
    cases x with
    | str t => simp [checkOptions, optionsShapeOk, exceptIsOk]
    | num n => simp [checkOptions, optionsShapeOk, exceptIsOk]
    | boolVal b => simp [checkOptions, optionsShapeOk, exceptIsOk]
    | nullVal => simp [checkOptions, optionsShapeOk, exceptIsOk]
    | arr xs =>
      by_cases h1 : xs.length < 2
      · have h1' : ¬ (2 ≤ xs.length) := by omega
        simp [checkOptions, optionsShapeOk, exceptIsOk, h1, h1']
      · by_cases h2 : 10 < xs.length
        · have h2' : ¬ (xs.length ≤ 10) := by omega
          simp [checkOptions, optionsShapeOk, exceptIsOk, h1, h2, h2']
        · have h1' : 2 ≤ xs.length := by omega
          have h2' : xs.length ≤ 10 := by omega
          by_cases h3 : xs.all optionElemShapeOk = true
          · have hf := (optionElems_flatten_nil_iff xs 0).mpr h3
            simp [checkOptions, optionsShapeOk, exceptIsOk, withIndex, h1, h2,
              h1', h2', h3, hf]
          · have hf : ((withIndexFrom 0 xs).map
                (fun p => checkOptionElem p.1 p.2)).flatten ≠ [] := by
              intro h
              exact h3 ((optionElems_flatten_nil_iff xs 0).mp h)
            simp [checkOptions, optionsShapeOk, exceptIsOk, withIndex, h1, h2,
              h1', h2', h3, List.isEmpty_iff, hf]

lemma checkEndDate_ok_iff (j : Option Json) :
    exceptIsOk (checkEndDate j) = true ↔ endDateShapeOk j = true := by
  cases j with
  | none => simp [checkEndDate, endDateShapeOk, exceptIsOk]
  | some x =>
    cases x with
    | str t => simp [checkEndDate, endDateShapeOk, exceptIsOk]
    | num n => simp [checkEndDate, endDateShapeOk, exceptIsOk]
    | boolVal b => simp [checkEndDate, endDateShapeOk, exceptIsOk]
    | nullVal => simp [checkEndDate, endDateShapeOk, exceptIsOk]
    | arr xs => simp [checkEndDate, endDateShapeOk, exceptIsOk]

lemma createPollSchemaParse_ok_iff (r : RawInput) :
    exceptIsOk (createPollSchemaParse r) = true ↔
      (claimValidShape r = true ∧ endDateShapeOk r.end_date = true) := by
  have h1 := checkTitle_ok_iff r.title
  have h2 := checkOptions_ok_iff r.options
  have h3 := checkEndDate_ok_iff r.end_date
  unfold createPollSchemaParse claimValidShape
  rcases ht : checkTitle r.title with e1 | t <;>
  rcases ho : checkOptions r.options with e2 | os <;>
  rcases he : checkEndDate r.end_date with e3 | ed <;>
  rw [ht] at h1 <;> rw [ho] at h2 <;> rw [he] at h3 <;>
  simp [exceptIsOk] at h1 h2 h3 <;>
  simp [exceptIsOk, h1, h2, h3]

lemma createPollSchemaParse_errs (r : RawInput) :
    errsOf (createPollSchemaParse r) =
      errsOf (checkTitle r.title) ++ errsOf (checkOptions r.options) ++
        errsOf (checkEndDate r.end_date) := by
  unfold createPollSchemaParse
  rcases ht : checkTitle r.title with e1 | t <;>
  rcases ho : checkOptions r.options with e2 | os <;>
  rcases he : checkEndDate r.end_date with e3 | ed <;>
  simp [errsOf]

/-- C3 (counterexample): a raw input meeting every condition the claim
lists — title a 5-character string, options an array of two 1-character
strings — is rejected by `createPollSchema` because its `end_date` is a
boolean, so the claim's acceptance biconditional fails. -/
theorem createPollSchema_rejects_bool_end_date :
    claimValidShape boolEndDateInput = true ∧
    exceptIsOk (createPollSchemaParse boolEndDateInput) = false := by
  constructor <;> rfl

/-- C3 (amended): the validator accepts exactly when the claim's title and
options conditions hold AND `end_date`, when present, is a string or null;
the reported issues are the concatenation of every field's issues (all
violations accumulate, not only the first); a 4-character title together
with a single option yields exactly the title violation and the
options-count violation. -/
theorem createPollSchema_accepts_iff :
    ∀ r : RawInput,
      (exceptIsOk (createPollSchemaParse r) = true ↔
        (claimValidShape r = true ∧ endDateShapeOk r.end_date = true)) ∧
      (errsOf (createPollSchemaParse r) =
        errsOf (checkTitle r.title) ++ errsOf (checkOptions r.options) ++
          errsOf (checkEndDate r.end_date)) ∧
      createPollSchemaParse
          { title := some (.str "Hi!!"), options := some (.arr [.str "A"]),
            end_date := none } =
        .error [.titleTooShort, .optionsTooFew] :=
  fun r => ⟨createPollSchemaParse_ok_iff r, createPollSchemaParse_errs r, rfl⟩

/-! ### C6 — not-found versus store failure in `getPollById`. -/

lemma sched_head_true (s : DBState) (h : s.sched.head? = some true) :
    ∃ r, s.sched = true :: r := by
  cases hs : s.sched with
  | nil => rw [hs] at h; simp at h
  | cons b r =>
    rw [hs] at h
    simp at h
    exact ⟨r, by rw [h]⟩

/-- C6 (counterexample): on a store whose only call fails, `getPollById 1`
returns `none` although a poll row with id 1 exists — the very same
outcome as a genuine not-found on the empty store — so not-found is
neither returned exactly when no row matches nor distinguishable from a
store failure. -/
theorem getPollById_store_failure_masquerades :
    (PollRepository.getPollById dbClient 1 failingStore).1 = none ∧
    failingStore.polls.any (fun p => p.id == 1) = true ∧
    (PollRepository.getPollById dbClient 1 (initState [])).1 = none := by
  refine ⟨rfl, rfl, rfl⟩

/-- C6 (amended): when the store call succeeds, `getPollById` returns
`none` exactly when no poll row matches the id; when the store call fails
it returns the same `none`, so the caller cannot tell a store failure from
not-found. -/
theorem getPollById_not_found_amended :
    ∀ (s : DBState) (id : Nat),
      (s.sched = [] →
        ((PollRepository.getPollById dbClient id s).1 = none ↔
          findPoll s id = none)) ∧
      (s.sched.head? = some true →
        (PollRepository.getPollById dbClient id s).1 = none) := by
  intro s id
  constructor
  · intro h
    simp only [PollRepository.getPollById, dbClient, pollsSelectJoinedSingle]
    rw [call_sched_nil s _ h]
    cases hf : findPoll s id with
    | none => simp
    | some p => simp
  · intro h
    obtain ⟨r, hr⟩ := sched_head_true s h
    simp only [PollRepository.getPollById, dbClient, pollsSelectJoinedSingle]
    rw [call_sched_fail s _ r hr]

/-- Concrete instances of both halves of the amended statement. -/
theorem getPollById_not_found_amended_witness :
    ((PollRepository.getPollById dbClient 1 (initState [])).1 = none ↔
      findPoll (initState []) 1 = none) ∧
    (PollRepository.getPollById dbClient 1 failingStore).1 = none :=
  ⟨(getPollById_not_found_amended (initState []) 1).1 rfl,
   (getPollById_not_found_amended failingStore 1).2 rfl⟩

/-! ### C9 — list reads mask store failures. -/

/-- C9: `getAllPolls` and `getUserPolls` never surface a failure: when the
store call fails they return the empty list, the same value they produce
on an empty store, so a store failure is indistinguishable from an empty
poll set at the repository interface. -/
theorem list_reads_mask_store_failures :
    ∀ (s : DBState) (uid : Nat),
      (s.sched.head? = some true →
        (PollRepository.getAllPolls dbClient s).1 = [] ∧
        (PollRepository.getUserPolls dbClient uid s).1 = []) ∧
      (PollRepository.getAllPolls dbClient (initState [])).1 = [] ∧
      (PollRepository.getUserPolls dbClient uid (initState [])).1 = [] := by
  intro s uid
  refine ⟨?_, rfl, rfl⟩
  intro h
  obtain ⟨r, hr⟩ := sched_head_true s h
  constructor
  · simp only [PollRepository.getAllPolls, dbClient, pollsSelectAllJoined]
    rw [call_sched_fail s _ r hr]
  · simp only [PollRepository.getUserPolls, dbClient, pollsSelectByUserJoined]
    rw [call_sched_fail s _ r hr]

/-- Concrete instance: a store holding a poll answers both list reads with
the empty list when the store call fails. -/
theorem list_reads_mask_store_failures_witness :
    (PollRepository.getAllPolls dbClient failingStore).1 = [] ∧
    (PollRepository.getUserPolls dbClient 2 failingStore).1 = [] :=
  (list_reads_mask_store_failures failingStore 2).1 rfl

/-! ### C4 — ownership enforcement in the PUT and DELETE handlers. -/

/-- C4: a PUT or DELETE without an identity is answered 401 before any
store access; with an identity but an unknown poll id, 404; with an
identity and an existing poll of a different creator, 403 — and in the 403
case the store's tables and write log are untouched (no mutating
repository operation ran), so the poll is unchanged as observable through
`getPollById`. -/
theorem put_delete_ownership :
    ∀ (s : DBState) (u id : Nat) (body : RawInput),
      (Api.putPoll none id body s = (.err 401, s) ∧
       Api.deletePoll none id s = (.err 401, s)) ∧
      ((PollRepository.getPollById dbClient id s).1 = none →
        (Api.putPoll (some u) id body s).1 = .err 404 ∧
        (Api.deletePoll (some u) id s).1 = .err 404) ∧
      (∀ p, (PollRepository.getPollById dbClient id s).1 = some p →
        p.poll.created_by ≠ u →
        (Api.putPoll (some u) id body s).1 = .err 403 ∧
        (Api.deletePoll (some u) id s).1 = .err 403 ∧
        storeUnchanged s (Api.putPoll (some u) id body s).2 ∧
        storeUnchanged s (Api.deletePoll (some u) id s).2) := by
  intro s u id body
  refine ⟨⟨rfl, rfl⟩, ?_, ?_⟩
  · intro h
    rcases hg : PollRepository.getPollById dbClient id s with ⟨res, s1⟩
    rw [hg] at h
    simp only at h
    subst h
    constructor
    · simp [Api.putPoll, hg]
    · simp [Api.deletePoll, hg]
  · intro p hp hne
    rcases hg : PollRepository.getPollById dbClient id s with ⟨res, s1⟩
    rw [hg] at hp
    simp only at hp
    subst hp
    have hst := getPollById_storeUnchanged id s
    rw [hg] at hst
    refine ⟨?_, ?_, ?_, ?_⟩
    · simp [Api.putPoll, hg, hne]
    · simp [Api.deletePoll, hg, hne]
    · simp only [Api.putPoll, hg, hne, ne_eq, not_false_eq_true, if_true]
      exact hst
    · simp only [Api.deletePoll, hg, hne, ne_eq, not_false_eq_true, if_true]
      exact hst

/-- Concrete instance: user 5 hitting user 2's poll gets 403 from both
handlers. -/
theorem put_delete_ownership_witness :
    (Api.putPoll (some 5) 1 boolEndDateInput ownStore).1 = .err 403 ∧
    (Api.deletePoll (some 5) 1 ownStore).1 = .err 403 :=
  have h := (put_delete_ownership ownStore 5 1 boolEndDateInput).2.2
    ownPollView rfl (by decide)
  ⟨h.1, h.2.1⟩

/-! ### List helpers for the option-replacement path. -/

lemma withIndexFrom_length {α : Type} (xs : List α) :
    ∀ k, (withIndexFrom k xs).length = xs.length := by
  induction xs with
  | nil => intro k; rfl
  | cons x xs ih => intro k; simp [withIndexFrom, ih]

lemma withIndexFrom_getElem {α : Type} (xs : List α) : ∀ (k i : Nat)
    (h : i < (withIndexFrom k xs).length) (h2 : i < xs.length),
    (withIndexFrom k xs)[i] = (k + i, xs[i]) := by
  induction xs with
  | nil => intro k i h h2; simp at h2
  | cons x xs ih =>
    intro k i h h2
    cases i with
    | zero => simp [withIndexFrom]
    | succ j =>
      have hj2 : j < xs.length := by simp at h2; omega
      have hj : j < (withIndexFrom (k + 1) xs).length := by
        rw [withIndexFrom_length]; exact hj2
      have hstep : (withIndexFrom k (x :: xs))[j + 1] =
          (withIndexFrom (k + 1) xs)[j] := by
        simp [withIndexFrom]
      rw [hstep, ih (k + 1) j hj hj2]
      have harith : k + 1 + j = k + (j + 1) := by omega
      rw [harith]
      simp

lemma withIndexFrom_snd_mem {α : Type} {xs : List α} :
    ∀ {k : Nat} {q : Nat × α}, q ∈ withIndexFrom k xs → q.2 ∈ xs := by
  induction xs with
  | nil => intro k q h; simp [withIndexFrom] at h
  | cons x xs ih =>
    intro k q h
    simp only [withIndexFrom, List.mem_cons] at h
    rcases h with h | h
    · rw [h]; exact List.mem_cons_self _ _
    · exact List.mem_cons_of_mem _ (ih h)

lemma filter_neg_filter {α : Type} (p : α → Bool) (l : List α) :
    (l.filter (fun a => !(p a))).filter p = [] := by
  induction l with
  | nil => rfl
  | cons a l ih =>
    by_cases h : p a = true
    · simp [List.filter_cons, h, ih]
    · have h' : p a = false := by
        cases hpa : p a
        · rfl
        · exact absurd hpa h
      simp [List.filter_cons, h', ih]

lemma findPoll_mem (s : DBState) (id : Nat) (p : PollRow)
    (h : findPoll s id = some p) : p ∈ s.polls ∧ (p.id == id) = true := by
  unfold findPoll at h
  have h2 := List.find?_some h
  exact ⟨List.mem_of_find?_eq_some h, h2⟩

lemma any_map_replace (ps : List PollRow) (id : Nat) (r : PollRow)
    (hr : (r.id == id) = true) (p : PollRow) (hp : p ∈ ps)
    (hpid : (p.id == id) = true) :
    (ps.map (fun q => if q.id == id then r else q)).any
      (fun q => q.id == id) = true := by
  apply List.any_eq_true.mpr
  refine ⟨r, ?_, hr⟩
  apply List.mem_map.mpr
  exact ⟨p, hp, by simp [hpid]⟩

lemma find_map_replace (ps : List PollRow) (id : Nat) (r : PollRow)
    (hr : (r.id == id) = true) :
    ∀ (_ : ∃ p ∈ ps, (p.id == id) = true),
    (ps.map (fun q => if q.id == id then r else q)).find?
      (fun q => q.id == id) = some r := by
  induction ps with
  | nil => rintro ⟨p, hp, _⟩; cases hp
  | cons q qs ih =>
    rintro ⟨p, hp, hpid⟩
    by_cases hq : (q.id == id) = true
    · simp [List.find?, hq, hr]
    · have hq' : (q.id == id) = false := by
        cases hqq : q.id == id
        · rfl
        · exact absurd hqq hq
      have hp' : p ∈ qs := by
        rcases List.mem_cons.mp hp with h | h
        · rw [h] at hpid; rw [hpid] at hq'; cases hq'
        · exact h
      simp only [List.map_cons, List.find?, hq', if_false]
      rw [if_neg (by simp [hq'])]
      simp only [hq', cond_false]
      exact ih ⟨p, hp', hpid⟩

/-! ### C2 — `updatePoll` replaces the options wholesale. -/

lemma mkOptionRows_length (s : DBState) (ds : List OptionInsertData) :
    (mkOptionRows s ds).length = ds.length := by
  unfold mkOptionRows withIndex
  rw [List.length_map, withIndexFrom_length]

lemma mkOptionRows_getElem (s : DBState) (ds : List OptionInsertData) (i : Nat)
    (h : i < (mkOptionRows s ds).length) (h2 : i < ds.length) :
    (mkOptionRows s ds)[i] =
      { id := s.nextId + i, poll_id := ds[i].poll_id, text := ds[i].text,
        position := ds[i].position, created_at := s.time } := by
  have hw : i < (withIndexFrom 0 ds).length := by
    rw [withIndexFrom_length]; exact h2
  unfold mkOptionRows withIndex
  rw [List.getElem_map]
  rw [withIndexFrom_getElem ds 0 i hw h2]
  simp

lemma updateRows_length (t : DBState) (id : Nat) (texts : List String) :
    (mkOptionRows t ((withIndex texts).map (fun q =>
      ({ poll_id := id, text := q.2, position := some q.1 } :
        OptionInsertData)))).length = texts.length := by
  rw [mkOptionRows_length, List.length_map]
  unfold withIndex
  rw [withIndexFrom_length]

lemma updateRows_getElem (t : DBState) (id : Nat) (texts : List String)
    (i : Nat)
    (h : i < (mkOptionRows t ((withIndex texts).map (fun q =>
      ({ poll_id := id, text := q.2, position := some q.1 } :
        OptionInsertData)))).length)
    (h2 : i < texts.length) :
    (mkOptionRows t ((withIndex texts).map (fun q =>
      ({ poll_id := id, text := q.2, position := some q.1 } :
        OptionInsertData))))[i] =
      { id := t.nextId + i, poll_id := id, text := texts[i],
        position := some i, created_at := t.time } := by
  have hd2 : i < ((withIndex texts).map (fun q =>
      ({ poll_id := id, text := q.2, position := some q.1 } :
        OptionInsertData))).length := by
    rw [List.length_map]
    unfold withIndex
    rw [withIndexFrom_length]
    exact h2
  have hw : i < (withIndexFrom 0 texts).length := by
    rw [withIndexFrom_length]; exact h2
  rw [mkOptionRows_getElem t _ i h hd2]
  unfold withIndex
  rw [List.getElem_map]
  rw [withIndexFrom_getElem texts 0 i hw h2]
  simp

/-- With a clean schedule, `getPollById` on an existing poll returns the
poll, its options in store order, and its vote count. -/
lemma getPollById_clean (s : DBState) (id : Nat) (hs : s.sched = [])
    (p : PollRow) (hfp : findPoll s id = some p) :
    PollRepository.getPollById dbClient id s =
      (some { poll := p, options := optionsOfPoll s id,
              votesCount := some (voteCountOfPoll s id) }, s) := by
  simp only [PollRepository.getPollById, dbClient, pollsSelectJoinedSingle]
  rw [call_sched_nil s _ hs, hfp]

/-- With a clean schedule and no matching poll, `updatePoll` fails
leaving the store untouched. -/
lemma updatePoll_notfound (s : DBState) (id : Nat) (input : CreatePollInput)
    (hs : s.sched = []) (hfp : findPoll s id = none) :
    PollRepository.updatePoll dbClient id input s = (none, s) := by
  simp only [PollRepository.updatePoll, dbClient, pollsUpdateSelectSingle]
  rw [call_sched_nil s _ hs, hfp]

/-- With a clean schedule and an existing poll, `updatePoll` succeeds and
its result is fully characterized: the poll row is rewritten in place, the
poll's previous options are gone, and the returned rows are the freshly
inserted ones — one per input option, text and position matching the input
order. -/
lemma updatePoll_success (s : DBState) (id : Nat) (input : CreatePollInput)
    (hs : s.sched = []) (p : PollRow) (hfp : findPoll s id = some p) :
    ∃ (r : PollRow) (rs : List OptionRow) (s1 : DBState),
      PollRepository.updatePoll dbClient id input s =
        (some { poll := r, options := rs, votesCount := none }, s1) ∧
      s1.sched = [] ∧
      s1.polls = s.polls.map (fun q => if q.id == id then r else q) ∧
      (r.id == id) = true ∧
      s1.poll_options =
        (s.poll_options.filter (fun o => !(o.poll_id == id))) ++ rs ∧
      rs.length = input.options.length ∧
      rs.map (fun o => o.text) = input.options ∧
      (∀ i (h : i < rs.length), rs[i].position = some i) ∧
      (∀ o ∈ rs, (o.poll_id == id) = true) := by
  obtain ⟨hpmem, hpid⟩ := findPoll_mem s id p hfp
  set r : PollRow := ({ p with
      title := input.title
      end_date := input.end_date.getD p.end_date
      updated_at := s.time } : PollRow) with hr
  have hrid : (r.id == id) = true := hpid
  set s2 : DBState := ({ s with
      polls := s.polls.map (fun q => if q.id == id then r else q)
      time := s.time + 1
      log := s.log ++ [WriteEvent.updatePollRow r] } : DBState) with hs2
  have h1 : pollsUpdateSelectSingle id input.title input.end_date s = (.ok r, s2) := by
    unfold pollsUpdateSelectSingle
    rw [call_sched_nil s _ hs, hfp]
  have hs2sched : s2.sched = [] := hs
  set delIds : List Nat := (optionsOfPoll s2 id).map (fun o => o.id) with hdel
  set s3 : DBState := ({ s2 with
      poll_options := s2.poll_options.filter (fun o => !(o.poll_id == id))
      votes := s2.votes.filter (fun v => !(delIds.contains v.option_id))
      time := s2.time + 1
      log := s2.log ++ [WriteEvent.deleteOptionsOfPoll id] } : DBState)
    with hs3
  have h2 : pollOptionsDeleteByPoll id s2 = (.ok (), s3) := by
    unfold pollOptionsDeleteByPoll
    rw [call_sched_nil s2 _ hs2sched]
  have hs3sched : s3.sched = [] := hs2sched
  set ds : List OptionInsertData := (withIndex input.options).map (fun q =>
      ({ poll_id := id, text := q.2, position := some q.1 } :
        OptionInsertData)) with hds
  set rs : List OptionRow := mkOptionRows s3 ds with hrs
  have hall : ds.all (fun d => d.position.isSome &&
      s3.polls.any (fun pp => pp.id == d.poll_id)) = true := by
    apply List.all_eq_true.mpr
    intro d hd
    rw [hds] at hd
    obtain ⟨q, hq, hdq⟩ := List.mem_map.mp hd
    rw [← hdq]
    have hany : s3.polls.any (fun pp => pp.id == id) = true :=
      any_map_replace s.polls id r hrid p hpmem hpid
    simpa using hany
  set s4 : DBState := ({ s3 with
      poll_options := s3.poll_options ++ rs
      nextId := s3.nextId + ds.length
      time := s3.time + 1
      log := s3.log ++ [WriteEvent.insertOptions rs] } : DBState) with hs4
  have h3 : pollOptionsInsertSelect ds s3 = (.ok rs, s4) := by
    unfold pollOptionsInsertSelect
    rw [call_sched_nil s3 _ hs3sched]
    simp only [hall, if_true]
  have hfinal : PollRepository.updatePoll dbClient id input s =
      (some { poll := r, options := rs, votesCount := none }, s4) := by
    simp only [PollRepository.updatePoll, dbClient]
    rw [h1]
    simp only []
    rw [h2]
    simp only []
    rw [← hds, h3]
  have hlen0 : rs.length = input.options.length :=
    updateRows_length s3 id input.options
  refine ⟨r, rs, s4, hfinal, hs, rfl, hrid, rfl, hlen0, ?_, ?_, ?_⟩
  · apply List.ext_getElem
    · simp only [List.length_map]
      exact hlen0
    · intro i hi1 hi2
      rw [List.getElem_map]
      have hlen : i < (mkOptionRows s3 ((withIndex input.options).map (fun q =>
          ({ poll_id := id, text := q.2, position := some q.1 } :
            OptionInsertData)))).length := by
        rw [updateRows_length]; exact hi2
      show (mkOptionRows s3 ((withIndex input.options).map (fun q =>
          ({ poll_id := id, text := q.2, position := some q.1 } :
            OptionInsertData))))[i].text = input.options[i]
      rw [updateRows_getElem s3 id input.options i hlen hi2]
  · intro i hlen
    have hi2 : i < input.options.length := lt_of_lt_of_le hlen (le_of_eq hlen0)
    have hlen2 : i < (mkOptionRows s3 ((withIndex input.options).map (fun q =>
        ({ poll_id := id, text := q.2, position := some q.1 } :
          OptionInsertData)))).length := hlen
    show (mkOptionRows s3 ((withIndex input.options).map (fun q =>
        ({ poll_id := id, text := q.2, position := some q.1 } :
          OptionInsertData))))[i].position = some i
    rw [updateRows_getElem s3 id input.options i hlen2 hi2]
  · intro o ho
    have ho2 : o ∈ mkOptionRows s3 ((withIndex input.options).map (fun q =>
        ({ poll_id := id, text := q.2, position := some q.1 } :
          OptionInsertData))) := ho
    obtain ⟨n, hn⟩ := List.mem_iff_get.mp ho2
    have hb : n.1 < rs.length := n.2
    have hi2 : n.1 < input.options.length := lt_of_lt_of_le hb (le_of_eq hlen0)
    have hglobal := updateRows_getElem s3 id input.options n.1 n.2 hi2
    rw [List.get_eq_getElem] at hn
    rw [hglobal] at hn
    rw [← hn]
    simp

/-- C2: with a clean schedule, a successful `updatePoll(id, input)`
followed by `getPollById(id)` returns exactly the freshly inserted
options — as many as the input has, texts matching the input in order, the
option at array index `i` carrying `position = i` — and the store holds no
option of that poll from before the update. -/
theorem updatePoll_replaces_options :
    ∀ (s s1 : DBState) (id : Nat) (input : CreatePollInput)
      (pw : PollWithOptions),
      s.sched = [] →
      PollRepository.updatePoll dbClient id input s = (some pw, s1) →
      ∃ q, (PollRepository.getPollById dbClient id s1).1 = some q ∧
        q.options = pw.options ∧
        optionsOfPoll s1 id = pw.options ∧
        pw.options.map (fun o => o.text) = input.options ∧
        pw.options.length = input.options.length ∧
        (∀ i (h : i < pw.options.length), pw.options[i].position = some i) := by
  intro s s1 id input pw hs hu
  cases hfp : findPoll s id with
  | none =>
    rw [updatePoll_notfound s id input hs hfp] at hu
    simp at hu
  | some p =>
    obtain ⟨r, rs, s1x, hfinal, hsched, hpolls, hrid, hopts, hlen, htext,
      hpos, hmem⟩ := updatePoll_success s id input hs p hfp
    rw [hfinal] at hu
    rw [Prod.mk.injEq] at hu
    obtain ⟨h1, h2⟩ := hu
    have hpw := Option.some.inj h1
    subst h2
    subst hpw
    have hfind : findPoll s1x id = some r := by
      unfold findPoll
      rw [hpolls]
      exact find_map_replace s.polls id r hrid
        ⟨p, (findPoll_mem s id p hfp).1, (findPoll_mem s id p hfp).2⟩
    have hfilter : optionsOfPoll s1x id = rs := by
      unfold optionsOfPoll
      rw [hopts, List.filter_append, filter_neg_filter, List.nil_append]
      apply List.filter_eq_self.mpr
      intro a ha
      exact hmem a ha
    have hread := getPollById_clean s1x id hsched r hfind
    refine ⟨{ poll := r, options := optionsOfPoll s1x id,
              votesCount := some (voteCountOfPoll s1x id) }, ?_, ?_, hfilter,
            htext, hlen, hpos⟩
    · rw [hread]
    · exact hfilter

/-- Concrete instance: updating poll 1 (which has one old option) with
options `["A", "B"]` and reading it back yields exactly the two fresh
options at positions 0 and 1. -/
theorem updatePoll_replaces_options_witness :
    ∃ q, (PollRepository.getPollById dbClient 1
        (PollRepository.updatePoll dbClient 1 c2Input c2State).2).1 = some q ∧
      q.options = c2Pw.options ∧
      optionsOfPoll (PollRepository.updatePoll dbClient 1 c2Input c2State).2 1 =
        c2Pw.options ∧
      c2Pw.options.map (fun o => o.text) = c2Input.options ∧
      c2Pw.options.length = c2Input.options.length ∧
      (∀ i (h : i < c2Pw.options.length), c2Pw.options[i].position = some i) :=
  updatePoll_replaces_options c2State
    (PollRepository.updatePoll dbClient 1 c2Input c2State).2 1 c2Input c2Pw
    rfl rfl

/-! ### C7 / C8 — the votes table. -/

lemma call_votes_pres {α : Type} (s : DBState)
    (k : DBState → Except Unit α × DBState)
    (hk : ∀ t, ∀ v ∈ (k t).2.votes, v ∈ t.votes) :
    ∀ v ∈ (call s k).2.votes, v ∈ s.votes := by
  unfold call
  cases hs : s.sched with
  | nil => exact hk s
  | cons b r =>
    cases b with
    | false =>
      simp only [Bool.false_eq_true, if_false]
      intro v hv
      exact hk { s with sched := r } v hv
    | true =>
      intro v hv
      exact hv

lemma pollsInsertSelectSingle_votes (d : PollInsertData) (s : DBState) :
    ∀ v ∈ (pollsInsertSelectSingle d s).2.votes, v ∈ s.votes := by
  unfold pollsInsertSelectSingle
  apply call_votes_pres
  intro t v hv
  exact hv

lemma pollOptionsInsertSelect_votes (ds : List OptionInsertData) (s : DBState) :
    ∀ v ∈ (pollOptionsInsertSelect ds s).2.votes, v ∈ s.votes := by
  unfold pollOptionsInsertSelect
  apply call_votes_pres
  intro t v
  split
  · exact fun h => h
  · exact fun h => h

lemma pollAnalyticsInsert_votes (d : AnalyticsInsertData) (s : DBState) :
    ∀ v ∈ (pollAnalyticsInsert d s).2.votes, v ∈ s.votes := by
  unfold pollAnalyticsInsert
  apply call_votes_pres
  intro t v
  split
  · exact fun h => h
  · exact fun h => h

lemma pollsUpdateSelectSingle_votes (id : Nat) (title : String)
    (e : Option (Option String)) (s : DBState) :
    ∀ v ∈ (pollsUpdateSelectSingle id title e s).2.votes, v ∈ s.votes := by
  unfold pollsUpdateSelectSingle
  apply call_votes_pres
  intro t v
  split
  · exact fun h => h
  · exact fun h => h

lemma pollOptionsDeleteByPoll_votes (pid : Nat) (s : DBState) :
    ∀ v ∈ (pollOptionsDeleteByPoll pid s).2.votes, v ∈ s.votes := by
  unfold pollOptionsDeleteByPoll
  apply call_votes_pres
  intro t v hv
  exact List.mem_of_mem_filter hv

lemma pollsDeleteById_votes (id : Nat) (s : DBState) :
    ∀ v ∈ (pollsDeleteById id s).2.votes, v ∈ s.votes := by
  unfold pollsDeleteById
  apply call_votes_pres
  intro t v hv
  exact List.mem_of_mem_filter hv

lemma votesInsert_snd (a : Nat) (n : String) (d : VoteInsertData) (s : DBState) :
    (votesInsert a n d s).2 = s := by
  unfold votesInsert
  split
  · rfl
  · split
    · rfl
    · split
      · rfl
      · simp [triggerUpsertAnalytics, analyticsHasUniqueOnPollId]

lemma createPoll_votes_pres (input : CreatePollInput) (u : Nat) (s : DBState) :
    ∀ v ∈ (PollRepository.createPoll dbClient input u s).2.votes, v ∈ s.votes := by
  simp only [PollRepository.createPoll, dbClient]
  have hp1 := pollsInsertSelectSingle_votes
    { title := input.title, created_by := u, end_date := input.end_date.join } s
  rcases h1 : pollsInsertSelectSingle
    { title := input.title, created_by := u, end_date := input.end_date.join } s
    with ⟨r1, s1⟩
  rw [h1] at hp1
  cases r1 with
  | error e =>
    dsimp only
    intro v hv
    exact hp1 v hv
  | ok poll =>
    dsimp only
    have hp2 := pollOptionsInsertSelect_votes (input.options.map (fun option =>
      ({ poll_id := poll.id, text := option, position := none } :
        OptionInsertData))) s1
    rcases h2 : pollOptionsInsertSelect (input.options.map (fun option =>
      ({ poll_id := poll.id, text := option, position := none } :
        OptionInsertData))) s1 with ⟨r2, s2⟩
    rw [h2] at hp2
    cases r2 with
    | error e =>
      dsimp only
      intro v hv
      exact hp1 v (hp2 v hv)
    | ok options =>
      dsimp only
      have hp3 := pollAnalyticsInsert_votes
        { poll_id := poll.id, views := 0, shares := 0 } s2
      rcases h3 : pollAnalyticsInsert
        { poll_id := poll.id, views := 0, shares := 0 } s2 with ⟨r3, s3⟩
      rw [h3] at hp3
      intro v hv
      exact hp1 v (hp2 v (hp3 v hv))

lemma updatePoll_votes_pres (id : Nat) (input : CreatePollInput) (s : DBState) :
    ∀ v ∈ (PollRepository.updatePoll dbClient id input s).2.votes, v ∈ s.votes := by
  simp only [PollRepository.updatePoll, dbClient]
  have hp1 := pollsUpdateSelectSingle_votes id input.title input.end_date s
  rcases h1 : pollsUpdateSelectSingle id input.title input.end_date s
    with ⟨r1, s1⟩
  rw [h1] at hp1
  cases r1 with
  | error e =>
    dsimp only
    intro v hv
    exact hp1 v hv
  | ok poll =>
    dsimp only
    have hp2 := pollOptionsDeleteByPoll_votes id s1
    rcases h2 : pollOptionsDeleteByPoll id s1 with ⟨r2, s2⟩
    rw [h2] at hp2
    cases r2 with
    | error e =>
      dsimp only
      intro v hv
      exact hp1 v (hp2 v hv)
    | ok u =>
      dsimp only
      have hp3 := pollOptionsInsertSelect_votes ((withIndex input.options).map
        (fun p => ({ poll_id := id, text := p.2, position := some p.1 } :
          OptionInsertData))) s2
      rcases h3 : pollOptionsInsertSelect ((withIndex input.options).map
        (fun p => ({ poll_id := id, text := p.2, position := some p.1 } :
          OptionInsertData))) s2 with ⟨r3, s3⟩
      rw [h3] at hp3
      try rw [h3]
      cases r3 with
      | error e =>
        intro v hv
        exact hp1 v (hp2 v (hp3 v hv))
      | ok options =>
        intro v hv
        exact hp1 v (hp2 v (hp3 v hv))

lemma deletePoll_votes_pres (id : Nat) (s : DBState) :
    ∀ v ∈ (PollRepository.deletePoll dbClient id s).2.votes, v ∈ s.votes := by
  simp only [PollRepository.deletePoll, dbClient]
  have hp1 := pollsDeleteById_votes id s
  rcases h1 : pollsDeleteById id s with ⟨r1, s1⟩
  rw [h1] at hp1
  cases r1 with
  | error e =>
    try dsimp only
    intro v hv
    exact hp1 v hv
  | ok u =>
    try dsimp only
    intro v hv
    exact hp1 v hv

lemma applyOp_votes_pres (s : DBState) (op : Op) :
    ∀ v ∈ (applyOp s op).votes, v ∈ s.votes := by
  cases op with
  | create input u => exact createPoll_votes_pres input u s
  | update id input => exact updatePoll_votes_pres id input s
  | delete id => exact deletePoll_votes_pres id s
  | vote a n d =>
    intro v hv
    rw [applyOp, votesInsert_snd] at hv
    exact hv
  | unvote a vid =>
    intro v hv
    exact List.mem_of_mem_filter hv

lemma votesUnique_pres (s : DBState) (op : Op) (h : VotesUnique s) :
    VotesUnique (applyOp s op) := by
  intro v hv w hw h1 h2
  exact h v (applyOp_votes_pres s op v hv) w (applyOp_votes_pres s op w hw) h1 h2

lemma votesUnique_foldl (ops : List Op) : ∀ (s : DBState),
    VotesUnique s → VotesUnique (ops.foldl applyOp s) := by
  induction ops with
  | nil => intro s h; exact h
  | cons op ops ih => intro s h; exact ih (applyOp s op) (votesUnique_pres s op h)

/-- C7: in every reachable store state no two vote rows share the same
`(user_id, option_id)` pair; inserting a vote the acting user already cast
on the same option fails with the uniqueness violation and leaves the
store (its votes table in particular) unchanged; and an insert by the same
user on a different option is never rejected by this constraint. -/
theorem votes_unique_per_user_option :
    (∀ (fs : List Bool) (ops : List Op), VotesUnique (runOps fs ops)) ∧
    (∀ (s : DBState) (auth : Nat) (now : String) (d : VoteInsertData),
      votePolicyOk s auth now d = true →
      voteDuplicate s d = true →
      votesInsert auth now d s = (.error .uniqueViolation, s)) ∧
    (∀ (s : DBState) (auth : Nat) (now : String) (d : VoteInsertData),
      voteDuplicate s d = false →
      (votesInsert auth now d s).1 ≠ .error .uniqueViolation) := by
  refine ⟨?_, ?_, ?_⟩
  · intro fs ops
    apply votesUnique_foldl
    intro v hv
    cases hv
  · intro s auth now d hpol hdup
    unfold votesInsert
    rw [hpol, hdup]
    simp
  · intro s auth now d hdup
    unfold votesInsert
    rw [hdup]
    simp only [Bool.false_eq_true, if_false]
    split
    · simp
    · split
      · simp
      · simp [triggerUpsertAnalytics, analyticsHasUniqueOnPollId]

/-- Concrete instance: user 7's duplicate vote on option 5 is rejected by
the uniqueness constraint with the store unchanged, while user 7's vote on
option 6 of the same poll is not rejected by that constraint. -/
theorem votes_unique_per_user_option_witness :
    votesInsert 7 "t" vote1Dup c7State = (.error .uniqueViolation, c7State) ∧
    (votesInsert 7 "t" vote2New c7State).1 ≠ .error .uniqueViolation :=
  ⟨votes_unique_per_user_option.2.1 c7State 7 "t" vote1Dup (by decide)
     (by decide),
   votes_unique_per_user_option.2.2 c7State 7 "t" vote2New (by decide)⟩

/-- C8: no vote insert can ever succeed — the AFTER INSERT trigger's
`insert ... on conflict (poll_id) do update` has no matching unique
constraint on `poll_analytics.poll_id`, so the trigger errors and aborts
every vote insert; in particular the very first, fully legitimate vote on
a fresh public poll fails with the trigger failure, and `unique_voters` is
never recomputed. -/
theorem vote_inserts_always_abort :
    (∀ (s : DBState) (auth : Nat) (now : String) (d : VoteInsertData),
      (votesInsert auth now d s).1 ≠ .ok ()) ∧
    votesInsert 7 "2025-01-01" { poll_id := 1, option_id := 5, user_id := 7 }
        c8State = (.error .triggerFailure, c8State) := by
  refine ⟨?_, rfl⟩
  intro s auth now d
  unfold votesInsert
  split
  · simp
  · split
    · simp
    · split
      · simp
      · simp [triggerUpsertAnalytics, analyticsHasUniqueOnPollId]

/-! ### C10 — the two repository versions coincide on a healthy store. -/

lemma mapState_pure {α β σ : Type} (f : α → σ → β × σ) (g : α → β) (s : σ)
    (hf : ∀ a, f a s = (g a, s)) :
    ∀ xs, PollRepositoryMulti.mapState f xs s = (xs.map g, s) := by
  intro xs
  induction xs with
  | nil => rfl
  | cons a as ih =>
    simp only [PollRepositoryMulti.mapState]
    rw [hf a, ih]
    simp

lemma fetchPollExtras_clean (s : DBState) (hs : s.sched = []) (p : PollRow) :
    PollRepositoryMulti.fetchPollExtras dbClient p s =
      ({ poll := p, options := optionsOfPoll s p.id,
         votesCount := some (voteCountOfPoll s p.id) }, s) := by
  simp only [PollRepositoryMulti.fetchPollExtras, dbClient,
    pollOptionsSelectByPoll, votesCountByPoll, call, hs]

/-- C10: over any store state with no injected failures ("every store call
succeeds"), the joined-query `PollRepository` and the per-poll multi-query
version return identical results and identical final states — the state
carries the write log, so the write sequences agree — for all six
operations. -/
theorem repo_versions_equivalent :
    ∀ (s : DBState), s.sched = [] →
    ∀ (id uid userId : Nat) (input : CreatePollInput),
      PollRepository.getPollById dbClient id s =
        PollRepositoryMulti.getPollById dbClient id s ∧
      PollRepository.getAllPolls dbClient s =
        PollRepositoryMulti.getAllPolls dbClient s ∧
      PollRepository.getUserPolls dbClient uid s =
        PollRepositoryMulti.getUserPolls dbClient uid s ∧
      PollRepository.createPoll dbClient input userId s =
        PollRepositoryMulti.createPoll dbClient input userId s ∧
      PollRepository.updatePoll dbClient id input s =
        PollRepositoryMulti.updatePoll dbClient id input s ∧
      PollRepository.deletePoll dbClient id s =
        PollRepositoryMulti.deletePoll dbClient id s := by
  intro s hs id uid userId input
  refine ⟨?_, ?_, ?_, rfl, rfl, rfl⟩
  · simp only [PollRepository.getPollById, PollRepositoryMulti.getPollById,
      dbClient, pollsSelectJoinedSingle, pollsSelectSingle,
      pollOptionsSelectByPoll, votesCountByPoll, call, hs]
    cases hf : findPoll s id with
    | none => rfl
    | some p => simp [call, hs]
  · simp only [PollRepository.getAllPolls, PollRepositoryMulti.getAllPolls,
      dbClient, pollsSelectAllJoined, pollsSelectAll, call, hs]
    rw [List.map_map]
    exact (mapState_pure (PollRepositoryMulti.fetchPollExtras dbClient)
      (fun p => { poll := p, options := optionsOfPoll s p.id,
                  votesCount := some (voteCountOfPoll s p.id) }) s
      (fetchPollExtras_clean s hs) (sortPollsDesc s.polls)).symm
  · simp only [PollRepository.getUserPolls, PollRepositoryMulti.getUserPolls,
      dbClient, pollsSelectByUserJoined, pollsSelectByUser, call, hs]
    rw [List.map_map]
    exact (mapState_pure (PollRepositoryMulti.fetchPollExtras dbClient)
      (fun p => { poll := p, options := optionsOfPoll s p.id,
                  votesCount := some (voteCountOfPoll s p.id) }) s
      (fetchPollExtras_clean s hs)
      (sortPollsDesc (s.polls.filter (fun p => p.created_by == uid)))).symm

/-- Concrete instance of the equivalence on a one-poll store. -/
theorem repo_versions_equivalent_witness :
    PollRepository.getPollById dbClient 1 ownStore =
      PollRepositoryMulti.getPollById dbClient 1 ownStore ∧
    PollRepository.getAllPolls dbClient ownStore =
      PollRepositoryMulti.getAllPolls dbClient ownStore ∧
    PollRepository.getUserPolls dbClient 2 ownStore =
      PollRepositoryMulti.getUserPolls dbClient 2 ownStore ∧
    PollRepository.createPoll dbClient c2Input 2 ownStore =
      PollRepositoryMulti.createPoll dbClient c2Input 2 ownStore ∧
    PollRepository.updatePoll dbClient 1 c2Input ownStore =
      PollRepositoryMulti.updatePoll dbClient 1 c2Input ownStore ∧
    PollRepository.deletePoll dbClient 1 ownStore =
      PollRepositoryMulti.deletePoll dbClient 1 ownStore :=
  repo_versions_equivalent ownStore rfl 1 2 2 c2Input

end Polly
